import Mathlib

/-!
Verification of the risk-classification and temporal-aggregation engine of the
miriskmonitor dashboard (src/app.py and the banking-services page), via a
shallow embedding of its Python functions into Lean.

Strings are modelled as Lean `String`/`List Char`; Python `str.lower()` is
modelled by `Char.toLower` (faithful on the ASCII range, which covers every
pattern literal the heuristic matches on), Python substring tests
(`pat in s`) by `List.isInfixOf`, and Python dict lookups by `List.lookup`
over association lists in insertion order (JSON object keys are unique).
-/

namespace MIRisk

/-- Model of Python `str.lower()` applied to a list of characters. -/
def lowerChars (s : List Char) : List Char := s.map Char.toLower

/-- Does `s` start with `pat`? -/
def startsWithChars (pat s : List Char) : Bool :=
  match pat, s with
  | [], _ => true
  | _ :: _, [] => false
  | p :: ps, c :: cs => p == c && startsWithChars ps cs

/-- Contiguous-substring search over character lists. -/
def hasSubChars (pat : List Char) : List Char → Bool
  | [] => startsWithChars pat []
  | c :: cs => startsWithChars pat (c :: cs) || hasSubChars pat cs

/-- Model of the Python substring test `pat in s`. -/
def hasSub (s : List Char) (pat : String) : Bool := hasSubChars pat.toList s

/-- One region's raw observation record for one date (src/app.py, the
`region_data` dict).  Fields are optional: the code reads them with
`region_data.get(field, '')`. -/
structure RegionData where
  situationGenerale : Option String
  activitesEconomiques : Option String
  circulation : Option String
  couvreFeu : Option String
deriving DecidableEq, Repr

/-- `region_data.get(field, '').lower()` as in `calculate_alert_level`. -/
def getField (f : Option String) : List Char := lowerChars (f.getD "").toList

/-- The triple returned by `calculate_alert_level`: level label, icon, color. -/
structure AlertResult where
  level : String
  icon : String
  color : String
deriving DecidableEq, Repr

/-- `("Élevé", "🔴", "#d32f2f")` as returned in src/app.py. -/
def eleveResult : AlertResult := ⟨"Élevé", "🔴", "#d32f2f"⟩

/-- `("Moyen", "🟡", "#f57c00")` as returned in src/app.py. -/
def moyenResult : AlertResult := ⟨"Moyen", "🟡", "#f57c00"⟩

/-- `("Faible", "🟢", "#388e3c")` as returned in src/app.py. -/
def faibleResult : AlertResult := ⟨"Faible", "🟢", "#388e3c"⟩

/-- Situation signal of the heuristic (src/app.py lines 119-127):
`if 'tendu' in situation or 'pillage' in situation: score += 3`
`elif 'ghost town' in situation: score += 4`
`elif 'ras' in situation or 'calme' in situation: score += 0`
`else: score += 1`. -/
def situationScore (situation : List Char) : Nat :=
  if hasSub situation "tendu" || hasSub situation "pillage" then 3
  else if hasSub situation "ghost town" then 4
  else if hasSub situation "ras" || hasSub situation "calme" then 0
  else 1

/-- Economic-activity signal (src/app.py lines 129-133). -/
def activitesScore (activites : List Char) : Nat :=
  if hasSub activites "fermé" || hasSub activites "ralenti" || hasSub activites "vide" then 2
  else if hasSub activites "variable" then 1
  else 0

/-- Curfew signal (src/app.py lines 135-137). -/
def couvreFeuScore (couvreFeu : List Char) : Nat :=
  if hasSub couvreFeu "interdiction" || hasSub couvreFeu "ghost town" then 2
  else 0

/-- The heuristic integer score of `calculate_alert_level` (lines 114-137). -/
def heuristicScore (rd : RegionData) : Nat :=
  situationScore (getField rd.situationGenerale) +
    activitesScore (getField rd.activitesEconomiques) +
    couvreFeuScore (getField rd.couvreFeu)

/-- Score-to-level thresholds (src/app.py lines 139-145):
`if score >= 5` then Élevé `elif score >= 2` then Moyen `else` Faible. -/
def levelFromScore (score : Nat) : AlertResult :=
  if 5 ≤ score then eleveResult
  else if 2 ≤ score then moyenResult
  else faibleResult

/-- The override table loaded from risque.json: date → region → level label. -/
abbrev RiskData := List (String × List (String × String))

/-- The guard and lookup of lines 102-103:
`if date_str and region_name and date_str in risk_data and region_name in
risk_data[date_str]` then `risk_data[date_str][region_name]`.
Python truthiness of a string is nonemptiness. -/
def overrideLookup (riskData : RiskData) (dateStr regionName : String) : Option String :=
  if dateStr = "" then none
  else if regionName = "" then none
  else match riskData.lookup dateStr with
    | none => none
    | some m => m.lookup regionName

/-- `calculate_alert_level(region_data, region_name, date_str)` from src/app.py
lines 98-145, with the module-level `risk_data` passed explicitly.  If the
override label is present and recognized it is returned directly; an
unrecognized label, like an absent entry, falls through to the heuristic. -/
def calculate_alert_level (riskData : RiskData) (region_data : RegionData)
    (region_name : String) (date_str : String) : AlertResult :=
  match overrideLookup riskData date_str region_name with
  | some levelFr =>
      if levelFr = "Élevé" then eleveResult
      else if levelFr = "Moyen" then moyenResult
      else if levelFr = "Faible" then faibleResult
      else levelFromScore (heuristicScore region_data)
  | none => levelFromScore (heuristicScore region_data)

/-- C1 counterexample: the situation text "tendu ghost town" contains both the
tense pattern "tendu" and the pattern "ghost town", yet the situation signal
contributes 3, not 4: the `if`-branch for tense/looting fires before the
`elif` for ghost town. -/
theorem c1_tense_beats_ghost_town :
    hasSub (lowerChars "tendu ghost town".toList) "tendu" = true ∧
    hasSub (lowerChars "tendu ghost town".toList) "ghost town" = true ∧
    situationScore (lowerChars "tendu ghost town".toList) = 3 ∧
    situationScore (lowerChars "tendu ghost town".toList) ≠ 4 := by
  decide

/-- C1 (amended): when the situation text matches a tense/looting pattern the
situation signal contributes 3 even when "ghost town" also occurs; the +4
ghost-town weight applies only when neither "tendu" nor "pillage" matches. -/
theorem c1_situation_rule_priority (s : List Char) :
    ((hasSub s "tendu" || hasSub s "pillage") = true → situationScore s = 3) ∧
    ((hasSub s "tendu" || hasSub s "pillage") = false →
      hasSub s "ghost town" = true → situationScore s = 4) := by
  constructor
  · intro h
    simp [situationScore, h]
  · intro h hg
    simp [situationScore, h, hg]

/-- C1 witness: the amended rule priority evaluated on concrete texts. -/
theorem c1_situation_rule_priority_witness :
    situationScore (lowerChars "tendu ghost town".toList) = 3 ∧
    situationScore (lowerChars "ghost town".toList) = 4 :=
  ⟨(c1_situation_rule_priority _).1 (by decide),
   (c1_situation_rule_priority _).2 (by decide) (by decide)⟩

/-- C2: when the override table has an entry with a recognized level label for
the (nonempty) requested date and region, `calculate_alert_level` returns
exactly the corresponding result, irrespective of the observation's text:
the conclusion does not depend on `rd`, so the heuristic is never blended in. -/
theorem c2_override_dominance (riskData : RiskData) (rd : RegionData)
    (date region l : String) (m : List (String × String))
    (hd : date ≠ "") (hr : region ≠ "")
    (hm : riskData.lookup date = some m) (hl : m.lookup region = some l)
    (hvalid : l = "Élevé" ∨ l = "Moyen" ∨ l = "Faible") :
    calculate_alert_level riskData rd region date =
      (if l = "Élevé" then eleveResult
       else if l = "Moyen" then moyenResult else faibleResult) := by
  have hover : overrideLookup riskData date region = some l := by
    unfold overrideLookup
    rw [if_neg hd, if_neg hr, hm]
    exact hl
  unfold calculate_alert_level
  rw [hover]
  rcases hvalid with h | h | h <;> simp [h]

/-- C2 witness: the spec's end-to-end scenario — override "Faible" for
("2025-01-10", "North") wins over text that scores 8 heuristically. -/
theorem c2_override_dominance_witness :
    calculate_alert_level [("2025-01-10", [("North", "Faible")])]
      ⟨some "Ghost town", some "fermé", none, some "interdiction"⟩
      "North" "2025-01-10" = faibleResult := by
  have h := c2_override_dominance [("2025-01-10", [("North", "Faible")])]
    ⟨some "Ghost town", some "fermé", none, some "interdiction"⟩
    "2025-01-10" "North" "Faible" [("North", "Faible")]
    (by decide) (by decide) (by decide) (by decide) (Or.inr (Or.inr rfl))
  simpa using h

/-- C4: without an override entry, `calculate_alert_level` maps the heuristic
score through exact thresholds — score ≥ 5 gives Élevé, 2 ≤ score < 5 gives
Moyen, score < 2 gives Faible — and always returns one of the three results. -/
theorem c4_score_boundaries (riskData : RiskData) (rd : RegionData)
    (region date : String)
    (hov : overrideLookup riskData date region = none) :
    (5 ≤ heuristicScore rd →
      calculate_alert_level riskData rd region date = eleveResult) ∧
    (2 ≤ heuristicScore rd → heuristicScore rd < 5 →
      calculate_alert_level riskData rd region date = moyenResult) ∧
    (heuristicScore rd < 2 →
      calculate_alert_level riskData rd region date = faibleResult) ∧
    (calculate_alert_level riskData rd region date = eleveResult ∨
     calculate_alert_level riskData rd region date = moyenResult ∨
     calculate_alert_level riskData rd region date = faibleResult) := by
  have hcalc : calculate_alert_level riskData rd region date
      = levelFromScore (heuristicScore rd) := by
    unfold calculate_alert_level
    rw [hov]
  rw [hcalc]
  unfold levelFromScore
  refine ⟨fun h5 => by rw [if_pos h5], fun h2 h5 => ?_, fun h2 => ?_, ?_⟩
  · rw [if_neg (by omega), if_pos h2]
  · rw [if_neg (by omega), if_neg (by omega)]
  · split
    · exact Or.inl rfl
    · split
      · exact Or.inr (Or.inl rfl)
      · exact Or.inr (Or.inr rfl)

/-- C4 witness: the spec's boundary cases — a score-4 observation is Moyen and
a score-5 observation is Élevé, with an empty override table. -/
theorem c4_score_boundaries_witness :
    calculate_alert_level [] ⟨some "ghost town", none, none, none⟩ "North" "2025-01-10"
      = moyenResult ∧
    calculate_alert_level [] ⟨some "tendu", some "fermé", none, none⟩ "North" "2025-01-10"
      = eleveResult := by
  constructor
  · exact (c4_score_boundaries [] ⟨some "ghost town", none, none, none⟩
      "North" "2025-01-10" (by decide)).2.1 (by decide) (by decide)
  · exact (c4_score_boundaries [] ⟨some "tendu", some "fermé", none, none⟩
      "North" "2025-01-10" (by decide)).1 (by decide)

/-- C9: when the override table has an entry for the requested (date, region)
whose label is none of "Élevé"/"Moyen"/"Faible", `calculate_alert_level`
silently ignores it and returns the heuristic result. -/
theorem c9_invalid_override_ignored (riskData : RiskData) (rd : RegionData)
    (date region l : String) (m : List (String × String))
    (hd : date ≠ "") (hr : region ≠ "")
    (hm : riskData.lookup date = some m) (hl : m.lookup region = some l)
    (h1 : l ≠ "Élevé") (h2 : l ≠ "Moyen") (h3 : l ≠ "Faible") :
    calculate_alert_level riskData rd region date
      = levelFromScore (heuristicScore rd) := by
  have hover : overrideLookup riskData date region = some l := by
    unfold overrideLookup
    rw [if_neg hd, if_neg hr, hm]
    exact hl
  unfold calculate_alert_level
  rw [hover]
  simp [h1, h2, h3]

/-- C9 witness: an override entry labelled "Critique" is ignored and the calm
observation falls through to the heuristic Faible. -/
theorem c9_invalid_override_ignored_witness :
    calculate_alert_level [("2025-01-10", [("North", "Critique")])]
      ⟨some "calme", none, none, none⟩ "North" "2025-01-10" = faibleResult := by
  have h := c9_invalid_override_ignored [("2025-01-10", [("North", "Critique")])]
    ⟨some "calme", none, none, none⟩ "2025-01-10" "North" "Critique"
    [("North", "Critique")] (by decide) (by decide) (by decide) (by decide)
    (by decide) (by decide) (by decide)
  rw [h]
  decide

/-! ## Statistics table and its filter (src/app.py lines 147-161 and 290-299) -/

/-- Model of `info.get(field, 'N/A')` used for the display columns. -/
def getNA (f : Option String) : String := f.getD "N/A"

/-- One row of the DataFrame built by `create_statistics_dataframe`. -/
structure StatRow where
  region : String
  niveau : String
  icone : String
  situation : String
  activites : String
  circulation : String
  couvreFeu : String
deriving DecidableEq, Repr

/-- `create_statistics_dataframe(data, date_str)` (src/app.py lines 147-161):
one row per region, in the insertion order of the source mapping. -/
def create_statistics_dataframe (riskData : RiskData)
    (data : List (String × RegionData)) (dateStr : String) : List StatRow :=
  data.map fun rr =>
    let res := calculate_alert_level riskData rr.2 rr.1 dateStr
    ⟨rr.1, res.level, res.icon, getNA rr.2.situationGenerale,
     getNA rr.2.activitesEconomiques, getNA rr.2.circulation, getNA rr.2.couvreFeu⟩

/-- The row filter of src/app.py lines 293-299: first keep the rows whose
region is in the multiselect value, then drop each alert level whose checkbox
is off. -/
def filtered_df (dfStats : List StatRow) (selectedRegions : List String)
    (showHigh showMedium showLow : Bool) : List StatRow :=
  let f0 := dfStats.filter fun r => selectedRegions.contains r.region
  let f1 := if showHigh then f0 else f0.filter fun r => r.niveau != "Élevé"
  let f2 := if showMedium then f1 else f1.filter fun r => r.niveau != "Moyen"
  if showLow then f2 else f2.filter fun r => r.niveau != "Faible"

/-- A level passes the three checkbox filters iff its checkbox is on (rows
with a level other than the three labels always pass). -/
def levelEnabled (showHigh showMedium showLow : Bool) (niveau : String) : Bool :=
  (niveau != "Élevé" || showHigh) && (niveau != "Moyen" || showMedium) &&
    (niveau != "Faible" || showLow)

/-- C5 counterexample: with an empty region allowlist (all regions deselected
in the multiselect) the filter keeps no rows at all, not every row. -/
theorem c5_empty_allowlist_keeps_nothing :
    filtered_df [⟨"Centre", "Faible", "🟢", "RAS", "N/A", "N/A", "N/A"⟩]
        [] true true true = [] ∧
    [(⟨"Centre", "Faible", "🟢", "RAS", "N/A", "N/A", "N/A"⟩ : StatRow)] ≠ [] := by
  decide

/-- C5 (amended): the filter keeps exactly the rows whose region is in the
region allowlist and whose level is enabled by the checkboxes; in particular
an empty allowlist keeps no rows (the `isin` test never passes), and the
"all pass" default comes from the widget defaults, not from the filter. -/
theorem c5_filter_characterization (dfStats : List StatRow) (sel : List String)
    (h m l : Bool) :
    filtered_df dfStats sel h m l =
      dfStats.filter fun r => sel.contains r.region && levelEnabled h m l r.niveau := by
  unfold filtered_df levelEnabled
  cases h <;> cases m <;> cases l <;>
    simp [List.filter_filter, Bool.and_assoc, Bool.and_comm, Bool.and_left_comm]

/-! ## Snapshot loader (src/app.py lines 43-65) -/

/-- Minimal JSON values: enough to express both source shapes the loader
accepts (a date-keyed object of region objects, or a flat region object). -/
inductive Json where
  | obj : List (String × Json) → Json
  | str : String → Json

/-- The date-format test of line 55: `first_key` truthy, of length 10, with
hyphens at character positions 4 and 7. -/
def isDateKeyedFirstKey (k : String) : Bool :=
  !(k == "") && k.length == 10 && k.toList.get? 4 == some '-' &&
    k.toList.get? 7 == some '-'

/-- What the loader finds when opening security_data.json. -/
inductive SourceContent where
  | missing
  | malformed
  | wellFormed (fields : List (String × Json))

/-- `load_security_data_by_date()` (src/app.py lines 43-65).  Only
`FileNotFoundError` is caught (returning `{}`); a structurally invalid file
makes `json.load` raise `json.JSONDecodeError`, which propagates to the
caller.  A well-formed object is returned as-is when its first key looks like
a date, and is otherwise wrapped as a single snapshot keyed by today. -/
def load_security_data_by_date (today : String) :
    SourceContent → Except Unit (List (String × Json))
  | .missing => .ok []
  | .malformed => .error ()
  | .wellFormed fields =>
      let firstKey := match fields with
        | [] => ""
        | (k, _) :: _ => k
      if isDateKeyedFirstKey firstKey then .ok fields
      else .ok [(today, Json.obj fields)]

/-- C6 counterexample: a malformed security_data.json does not degrade to the
empty dataset — the parse fault propagates — unlike a missing file. -/
theorem c6_malformed_propagates :
    load_security_data_by_date "2025-01-12" .malformed = .error () ∧
    load_security_data_by_date "2025-01-12" .missing = .ok [] :=
  ⟨rfl, rfl⟩

/-- C6 (amended): a missing primary security source degrades to the empty
dataset, but a structurally invalid one propagates the parse fault: the
loader only catches `FileNotFoundError`. -/
theorem c6_only_missing_degrades (today : String) :
    load_security_data_by_date today .missing = .ok [] ∧
    ∀ res, load_security_data_by_date today .malformed ≠ .ok res :=
  ⟨rfl, fun _ h => Except.noConfusion h⟩

/-- C8: the loader inspects the first top-level key; when it is 10 characters
long with hyphens at positions 4 and 7 the structure is returned date-keyed
as-is, and otherwise the whole flat mapping is wrapped as a single snapshot
keyed by `today` (the current date).  A 10-character key is in particular
nonempty, so the code's extra truthiness test changes nothing. -/
theorem c8_format_detection (today : String) (fields : List (String × Json))
    (k : String) (v : Json) (hhead : fields.head? = some (k, v)) :
    (k.length = 10 → k.toList.get? 4 = some '-' → k.toList.get? 7 = some '-' →
      load_security_data_by_date today (.wellFormed fields) = .ok fields) ∧
    (isDateKeyedFirstKey k = false →
      load_security_data_by_date today (.wellFormed fields)
        = .ok [(today, Json.obj fields)]) := by
  cases fields with
  | nil => exact absurd hhead (by simp)
  | cons kv rest =>
    obtain ⟨hk, -⟩ : kv.1 = k ∧ kv.2 = v := by
      have := hhead
      simp only [List.head?] at this
      exact ⟨congrArg Prod.fst (Option.some.inj this),
             congrArg Prod.snd (Option.some.inj this)⟩
    constructor
    · intro hlen h4 h7
      have hne : (k == "") = false :=
        beq_eq_false_iff_ne.mpr (fun he => by subst he; simp at hlen)
      have hcond : isDateKeyedFirstKey k = true := by
        unfold isDateKeyedFirstKey
        rw [hne, hlen, h4, h7]
        decide
      show (if isDateKeyedFirstKey kv.1 = true then _ else _) = _
      rw [hk, hcond]
      simp
    · intro hcond
      show (if isDateKeyedFirstKey kv.1 = true then _ else _) = _
      rw [hk, hcond]
      simp

/-- C8 witness: a date-keyed object is kept as-is, while a legacy flat object
is wrapped as a single snapshot dated today. -/
theorem c8_format_detection_witness :
    load_security_data_by_date "2025-01-12"
        (.wellFormed [("2025-01-10", Json.obj [])])
      = .ok [("2025-01-10", Json.obj [])] ∧
    load_security_data_by_date "2025-01-12"
        (.wellFormed [("North", Json.str "x")])
      = .ok [("2025-01-12", Json.obj [("North", Json.str "x")])] := by
  constructor
  · exact (c8_format_detection "2025-01-12" [("2025-01-10", Json.obj [])]
      "2025-01-10" (Json.obj []) rfl).1 (by decide) (by decide) (by decide)
  · exact (c8_format_detection "2025-01-12" [("North", Json.str "x")]
      "North" (Json.str "x") rfl).2 (by decide)

/-! ## Nearest-date fallback (src/app.py lines 93 and 206-212)

Dates are represented by their day ordinals as an `Int`: a well-formed ISO
date string "YYYY-MM-DD" is identified with its day number, under which the
lexicographic string order used by `sorted` coincides with the numeric order,
and `abs` of the `datetime` difference taken by the fallback's key function
is the absolute difference of day ordinals. -/

instance : DecidableRel (fun a b : Int => b ≤ a) := fun a b => Int.decLe b a

instance : IsTotal Int (fun a b : Int => b ≤ a) := ⟨fun a b => le_total b a⟩

instance : IsTrans Int (fun a b : Int => b ≤ a) := ⟨fun _ _ _ h1 h2 => le_trans h2 h1⟩

/-- `available_dates = sorted(all_security_data.keys(), reverse=True)`
(src/app.py line 93). -/
def available_dates (keys : List Int) : List Int :=
  List.insertionSort (fun a b => b ≤ a) keys

/-- Python `min(iterable, key=k)`: the first element achieving the least key;
`none` on an empty iterable (where Python raises `ValueError`). -/
def minByKey (k : Int → Nat) : List Int → Option Int
  | [] => none
  | x :: xs => some (xs.foldl (fun b a => if k a < k b then a else b) x)

/-- The fallback of src/app.py lines 208-210: `min(available_dates, key=
lambda d: abs(parse(d) - parse(selected_date)))`. -/
def closest_date (dates : List Int) (selected : Int) : Option Int :=
  minByKey (fun d => (d - selected).natAbs) dates

/-- Python's `min` with a key over a strictly descending list: the result is
in the list, achieves the least key, and - because `min` keeps the first
minimizer - is the largest among the elements of least key. -/
theorem foldl_min_spec (k : Int → Nat) :
    ∀ (xs : List Int) (x r : Int),
      (x :: xs).Pairwise (fun a b => b < a) →
      xs.foldl (fun b a => if k a < k b then a else b) x = r →
      (r = x ∨ r ∈ xs) ∧ (∀ d, (d = x ∨ d ∈ xs) → k r ≤ k d) ∧
        (∀ d, (d = x ∨ d ∈ xs) → k d = k r → d ≤ r)
  | [], x, r, _, hr => by
      have hx : x = r := hr
      subst hx
      refine ⟨Or.inl rfl, ?_, ?_⟩
      · rintro d (rfl | hd)
        · exact le_refl _
        · exact absurd hd (List.not_mem_nil d)
      · rintro d (rfl | hd) _
        · exact le_refl _
        · exact absurd hd (List.not_mem_nil d)
  | a :: t, x, r, hp, hr => by
      have hx : ∀ y ∈ a :: t, y < x := (List.pairwise_cons.mp hp).1
      have hp2 : (a :: t).Pairwise (fun a b => b < a) := (List.pairwise_cons.mp hp).2
      have ht : t.Pairwise (fun a b => b < a) := (List.pairwise_cons.mp hp2).2
      have hr' : t.foldl (fun b a => if k a < k b then a else b)
          (if k a < k x then a else x) = r := hr
      by_cases hka : k a < k x
      · rw [if_pos hka] at hr'
        obtain ⟨hm, hmin, htie⟩ := foldl_min_spec k t a r hp2 hr'
        refine ⟨?_, ?_, ?_⟩
        · rcases hm with h | h
          · exact Or.inr (h ▸ List.mem_cons_self a t)
          · exact Or.inr (List.mem_cons_of_mem a h)
        · rintro d (rfl | hd)
          · have h1 : k r ≤ k a := hmin a (Or.inl rfl)
            omega
          · rcases List.mem_cons.mp hd with rfl | hdt
            · exact hmin d (Or.inl rfl)
            · exact hmin d (Or.inr hdt)
        · rintro d (rfl | hd) hkd
          · have h1 : k r ≤ k a := hmin a (Or.inl rfl)
            omega
          · rcases List.mem_cons.mp hd with rfl | hdt
            · exact htie d (Or.inl rfl) hkd
            · exact htie d (Or.inr hdt) hkd
      · rw [if_neg hka] at hr'
        have hp' : (x :: t).Pairwise (fun a b => b < a) :=
          List.pairwise_cons.mpr
            ⟨fun y hy => hx y (List.mem_cons_of_mem a hy), ht⟩
        obtain ⟨hm, hmin, htie⟩ := foldl_min_spec k t x r hp' hr'
        refine ⟨?_, ?_, ?_⟩
        · rcases hm with h | h
          · exact Or.inl h
          · exact Or.inr (List.mem_cons_of_mem a h)
        · rintro d (rfl | hd)
          · exact hmin d (Or.inl rfl)
          · rcases List.mem_cons.mp hd with rfl | hdt
            · have h1 : k r ≤ k x := hmin x (Or.inl rfl)
              omega
            · exact hmin d (Or.inr hdt)
        · rintro d (rfl | hd) hkd
          · exact htie d (Or.inl rfl) hkd
          · rcases List.mem_cons.mp hd with rfl | hdt
            · have h1 : k r ≤ k x := hmin x (Or.inl rfl)
              have h2 : k x = k r := by omega
              have h3 : x ≤ r := htie x (Or.inl rfl) h2
              rcases hm with h | h
              · have h4 : d < x := hx d (List.mem_cons_self d t)
                omega
              · have h4 : r < x := hx r (List.mem_cons_of_mem d h)
                omega
            · exact htie d (Or.inr hdt) hkd

/-- C3 counterexample: with day ordinals 9 and 11 available (standing for
2025-01-09 and 2025-01-11) and day 10 requested, both candidates are exactly
one day away, yet the code selects 11 - the LATER date - because `min` scans
the descending `available_dates` list and keeps its first minimizer. -/
theorem c3_tie_selects_later_date :
    closest_date (available_dates [9, 11]) 10 = some 11 ∧
    ((9 : Int) - 10).natAbs = ((11 : Int) - 10).natAbs ∧ ¬ (11 : Int) ≤ 9 := by
  decide

/-- C3 (amended): for a nonempty duplicate-free set of available date keys,
the fallback selects an available date of minimal absolute day distance to
the requested date; when two available dates are equally distant the tie is
broken toward the later date (the selected date is an upper bound of all
equally-distant candidates). -/
theorem c3_nearest_date_tie_later (keys : List Int) (selected : Int)
    (hne : keys ≠ []) (hnd : keys.Nodup) :
    ∃ c, closest_date (available_dates keys) selected = some c ∧ c ∈ keys ∧
      (∀ d ∈ keys, (c - selected).natAbs ≤ (d - selected).natAbs) ∧
      (∀ d ∈ keys, (d - selected).natAbs = (c - selected).natAbs → d ≤ c) := by
  have hperm : (available_dates keys).Perm keys := List.perm_insertionSort _ keys
  have hsorted : (available_dates keys).Sorted (fun a b => b ≤ a) :=
    List.sorted_insertionSort _ keys
  have hnd' : (available_dates keys).Nodup := hperm.nodup_iff.mpr hnd
  have hgt : (available_dates keys).Pairwise (fun a b => b < a) :=
    (List.Pairwise.and hsorted hnd').imp
      (fun h => lt_of_le_of_ne h.1 (Ne.symm h.2))
  cases hAD : available_dates keys with
  | nil =>
      rw [hAD] at hperm
      exact absurd hperm.symm.eq_nil hne
  | cons y ys =>
      rw [hAD] at hgt hperm
      obtain ⟨hm, hmin, htie⟩ :=
        foldl_min_spec (fun d => (d - selected).natAbs) ys y _ hgt rfl
      have hmem : ∀ d, (d = y ∨ d ∈ ys) ↔ d ∈ keys := by
        intro d
        rw [← List.mem_cons]
        exact hperm.mem_iff
      refine ⟨_, rfl, (hmem _).mp ?_, ?_, ?_⟩
      · exact hm
      · intro d hd
        exact hmin d ((hmem d).mpr hd)
      · intro d hd hkd
        exact htie d ((hmem d).mpr hd) hkd

/-- C3 witness: the amended theorem applied to the concrete date set
standing for {2025-01-09, 2025-01-11} with 2025-01-10 requested. -/
theorem c3_nearest_date_tie_later_witness :
    (closest_date (available_dates [9, 11]) 10).isSome = true := by
  obtain ⟨c, hc, -, -, -⟩ := c3_nearest_date_tie_later [9, 11] 10
    (by decide) (by decide)
  rw [hc]
  rfl

/-! ## Temporal comparison and evolution series
(src/app.py lines 378-402 and 448-501) -/

/-- Code-point ≤ on character lists: the comparison Python's `sorted`
performs on date strings.  On well-formed "YYYY-MM-DD" strings it coincides
with calendar order. -/
def charListLe : List Char → List Char → Bool
  | [], _ => true
  | _ :: _, [] => false
  | a :: as, b :: bs =>
      if a.toNat = b.toNat then charListLe as bs
      else decide (a.toNat < b.toNat)

/-- Code-point ≤ on strings. -/
def strLe (a b : String) : Bool := charListLe a.toList b.toList

theorem charListLe_total : ∀ a b : List Char,
    charListLe a b = true ∨ charListLe b a = true
  | [], _ => Or.inl rfl
  | _ :: _, [] => Or.inr rfl
  | a :: as, b :: bs => by
      by_cases h : a.toNat = b.toNat
      · rcases charListLe_total as bs with h1 | h1
        · refine Or.inl ?_
          unfold charListLe
          rw [if_pos h]
          exact h1
        · refine Or.inr ?_
          unfold charListLe
          rw [if_pos h.symm]
          exact h1
      · by_cases h2 : a.toNat < b.toNat
        · refine Or.inl ?_
          unfold charListLe
          rw [if_neg h]
          exact decide_eq_true h2
        · refine Or.inr ?_
          unfold charListLe
          rw [if_neg (by omega)]
          exact decide_eq_true (by omega)

theorem charListLe_trans : ∀ a b c : List Char,
    charListLe a b = true → charListLe b c = true → charListLe a c = true
  | [], _, _, _, _ => rfl
  | _ :: _, [], _, h1, _ => by simp [charListLe] at h1
  | _ :: _, _ :: _, [], _, h2 => by simp [charListLe] at h2
  | a :: as, b :: bs, c :: cs, h1, h2 => by
      unfold charListLe at h1 h2 ⊢
      by_cases hab : a.toNat = b.toNat <;> by_cases hbc : b.toNat = c.toNat
      · rw [if_pos hab] at h1
        rw [if_pos hbc] at h2
        rw [if_pos (hab.trans hbc)]
        exact charListLe_trans as bs cs h1 h2
      · rw [if_pos hab] at h1
        rw [if_neg hbc] at h2
        have h3 : b.toNat < c.toNat := of_decide_eq_true h2
        rw [if_neg (by omega)]
        exact decide_eq_true (by omega)
      · rw [if_neg hab] at h1
        have h3 : a.toNat < b.toNat := of_decide_eq_true h1
        rw [if_neg (by omega)]
        exact decide_eq_true (by omega)
      · rw [if_neg hab] at h1
        rw [if_neg hbc] at h2
        have h3 : a.toNat < b.toNat := of_decide_eq_true h1
        have h4 : b.toNat < c.toNat := of_decide_eq_true h2
        rw [if_neg (by omega)]
        exact decide_eq_true (by omega)

/-- One row of the date-comparison long-form table (Date, Région, Niveau).
The code reformats the date to DD/MM/YYYY for display only; rows here keep
the ISO key, whose order is the calendar order. -/
structure SeriesRow where
  date : String
  region : String
  niveau : String
deriving DecidableEq, Repr

/-- The per-date security snapshots: date → region → observation. -/
abbrev SecurityData := List (String × List (String × RegionData))

/-- The rows one date contributes to `comparison_data` (src/app.py lines
380-400): for each selected region in order, a row if the region has data
for the date, and nothing otherwise (no placeholder row). -/
def comparisonBlock (allData : SecurityData) (riskData : RiskData)
    (selectedRegions : List String) (d : String) : List SeriesRow :=
  selectedRegions.filterMap fun r =>
    (((allData.lookup d).getD []).lookup r).map fun rd =>
      ⟨d, r, (calculate_alert_level riskData rd r d).level⟩

/-- `comparison_data` (src/app.py lines 378-402): the currently selected
date's rows first, then each comparison date's rows in the order the dates
were supplied by the multiselect. -/
def comparison_data (allData : SecurityData) (riskData : RiskData)
    (selectedRegions : List String) (selectedDate : String)
    (comparisonDates : List String) : List SeriesRow :=
  comparisonBlock allData riskData selectedRegions selectedDate ++
    comparisonDates.flatMap (comparisonBlock allData riskData selectedRegions)

/-- The numeric level encoding of the evolution chart (`score_map`,
src/app.py line 451), `None` for an unrecognized label. -/
def score_map (level : String) : Option Nat :=
  if level = "Faible" then some 1
  else if level = "Moyen" then some 2
  else if level = "Élevé" then some 3
  else none

/-- One row of the evolution chart's long-form table. -/
structure EvoRow where
  date : String
  region : String
  niveau : String
  score : Option Nat
deriving DecidableEq, Repr

instance : DecidableRel (fun a b : String => strLe a b = true) :=
  fun _ _ => instDecidableEqBool _ _

instance : IsTotal String (fun a b : String => strLe a b = true) :=
  ⟨fun a b => charListLe_total a.toList b.toList⟩

instance : IsTrans String (fun a b : String => strLe a b = true) :=
  ⟨fun a b c => charListLe_trans a.toList b.toList c.toList⟩

instance : DecidableRel (fun a b : EvoRow => strLe a.date b.date = true) :=
  fun _ _ => instDecidableEqBool _ _

instance : IsTotal EvoRow (fun a b : EvoRow => strLe a.date b.date = true) :=
  ⟨fun a b => charListLe_total a.date.toList b.date.toList⟩

instance : IsTrans EvoRow (fun a b : EvoRow => strLe a.date b.date = true) :=
  ⟨fun a b c => charListLe_trans a.date.toList b.date.toList c.date.toList⟩

/-- `evo_df` (src/app.py lines 448-479): the risque.json date keys in
ascending order; for each date and each plotted region a row when the
override table holds a non-empty level (`if level:` skips both absent
regions and empty labels); finally `evo_df.sort_values("Date")`, a stable
sort by date - the parsed datetimes sort exactly as the ISO strings. -/
def evo_df (riskData : RiskData) (regionsToPlot : List String) : List EvoRow :=
  let sortedDates := List.insertionSort
    (fun a b : String => strLe a b = true) (riskData.map Prod.fst)
  let rows := sortedDates.flatMap fun d =>
    regionsToPlot.filterMap fun r =>
      match ((riskData.lookup d).getD []).lookup r with
      | some l => if l = "" then none else some ⟨d, r, l, score_map l⟩
      | none => none
  List.insertionSort (fun a b : EvoRow => strLe a.date b.date = true) rows

/-- C7 counterexample: with snapshots for 2025-01-09 and 2025-01-10, the
selected date 2025-01-10 and comparison date 2025-01-09, `comparison_data`
lists the 2025-01-10 row before the 2025-01-09 row: the series is not in
ascending calendar order. -/
theorem c7_comparison_not_ascending :
    ¬ (comparison_data
        [("2025-01-09", [("North", ⟨none, none, none, none⟩)]),
         ("2025-01-10", [("North", ⟨none, none, none, none⟩)])]
        [] ["North"] "2025-01-10" ["2025-01-09"]).Sorted
        (fun a b => strLe a.date b.date = true) := by
  intro h
  have heq : comparison_data
      [("2025-01-09", [("North", ⟨none, none, none, none⟩)]),
       ("2025-01-10", [("North", ⟨none, none, none, none⟩)])]
      [] ["North"] "2025-01-10" ["2025-01-09"]
      = [⟨"2025-01-10", "North", "Faible"⟩, ⟨"2025-01-09", "North", "Faible"⟩] := by
    decide
  rw [heq] at h
  have h2 := List.rel_of_sorted_cons h
    ⟨"2025-01-09", "North", "Faible"⟩ (List.mem_cons_self _ _)
  exact absurd h2 (by decide)

/-- C7 (amended): the risk-evolution series is sorted by ascending date for
every input, and a region with no data for a date is absent rather than
present with a null level - every evolution row carries a non-empty level
read from the override table, and every comparison row corresponds to a
region present in that date's snapshot.  The date-comparison series itself
is not date-sorted: it lists the selected date first, then the comparison
dates in input order. -/
theorem c7_series_sorted_and_no_null_rows :
    (∀ (riskData : RiskData) (regions : List String),
      (evo_df riskData regions).Sorted (fun a b => strLe a.date b.date = true)) ∧
    (∀ (riskData : RiskData) (regions : List String) (row : EvoRow),
      row ∈ evo_df riskData regions →
      ∃ m, riskData.lookup row.date = some m ∧
        m.lookup row.region = some row.niveau ∧ row.niveau ≠ "") ∧
    (∀ (allData : SecurityData) (riskData : RiskData) (regions : List String)
        (selectedDate : String) (comparisonDates : List String)
        (row : SeriesRow),
      row ∈ comparison_data allData riskData regions selectedDate
        comparisonDates →
      ∃ m rd, allData.lookup row.date = some m ∧
        m.lookup row.region = some rd) := by
  refine ⟨?_, ?_, ?_⟩
  · intro riskData regions
    exact List.sorted_insertionSort _ _
  · intro riskData regions row hrow
    rw [evo_df, List.mem_insertionSort, List.mem_flatMap] at hrow
    obtain ⟨d, -, hrow⟩ := hrow
    rw [List.mem_filterMap] at hrow
    obtain ⟨r, -, hf⟩ := hrow
    cases hl : ((riskData.lookup d).getD []).lookup r with
    | none => simp only [hl] at hf; exact Option.noConfusion hf
    | some l =>
        simp only [hl] at hf
        by_cases hempty : l = ""
        · rw [if_pos hempty] at hf
          exact Option.noConfusion hf
        · rw [if_neg hempty] at hf
          have hrow' : row = ⟨d, r, l, score_map l⟩ := (Option.some.inj hf).symm
          subst hrow'
          obtain ⟨m, hm⟩ : ∃ m, riskData.lookup d = some m := by
            cases hmm : riskData.lookup d with
            | none => rw [hmm] at hl; simp at hl
            | some m => exact ⟨m, rfl⟩
          have hl' : List.lookup r m = some l := by
            rw [hm] at hl
            exact hl
          exact ⟨m, hm, hl', hempty⟩
  · intro allData riskData regions selectedDate comparisonDates row hrow
    rw [comparison_data, List.mem_append] at hrow
    have hblock : ∀ d, row ∈ comparisonBlock allData riskData regions d →
        ∃ m rd, allData.lookup row.date = some m ∧
          m.lookup row.region = some rd := by
      intro d hmem
      rw [comparisonBlock, List.mem_filterMap] at hmem
      obtain ⟨r, -, hf⟩ := hmem
      cases hl : ((allData.lookup d).getD []).lookup r with
      | none => simp only [hl] at hf; exact Option.noConfusion hf
      | some rd =>
          simp only [hl] at hf
          have hrow' : row = ⟨d, r, (calculate_alert_level riskData rd r d).level⟩ :=
            (Option.some.inj hf).symm
          subst hrow'
          obtain ⟨m, hm⟩ : ∃ m, allData.lookup d = some m := by
            cases hmm : allData.lookup d with
            | none => rw [hmm] at hl; simp at hl
            | some m => exact ⟨m, rfl⟩
          have hl' : List.lookup r m = some rd := by
            rw [hm] at hl
            exact hl
          exact ⟨m, rd, hm, hl'⟩
    rcases hrow with hrow | hrow
    · exact hblock selectedDate hrow
    · rw [List.mem_flatMap] at hrow
      obtain ⟨d, -, hrow⟩ := hrow
      exact hblock d hrow

/-- C7 witness: the no-null-rows part applied to a concrete one-row series. -/
theorem c7_series_witness :
    (List.lookup "2025-01-09"
      ([("2025-01-09", [("North", ⟨none, none, none, none⟩)])] : SecurityData)).isSome
      = true := by
  obtain ⟨m, rd, hm, -⟩ := c7_series_sorted_and_no_null_rows.2.2
    [("2025-01-09", [("North", ⟨none, none, none, none⟩)])] [] ["North"]
    "2025-01-09" [] ⟨"2025-01-09", "North", "Faible"⟩ (by decide)
  exact Option.isSome_iff_exists.mpr ⟨m, hm⟩

/-! ## Banking open/closed normalization
(src/pages/Etat des Services Bancaires.py, `load_banking_data`, line 56) -/

/-- Python `str.strip()`: drop leading and trailing whitespace. -/
def pyStrip (s : List Char) : List Char :=
  ((s.dropWhile Char.isWhitespace).reverse.dropWhile Char.isWhitespace).reverse

/-- The Ouvert-column normalization of `load_banking_data`:
`df.Ouvert.str.strip().str.lower().map({'oui': 'Oui', 'non': 'Non'})` -
strip, lowercase, then map the two recognized forms to the canonical labels;
any other value becomes missing (NaN). -/
def normalizeOuvert (s : String) : Option String :=
  if lowerChars (pyStrip s.toList) = "oui".toList then some "Oui"
  else if lowerChars (pyStrip s.toList) = "non".toList then some "Non"
  else none

theorem dropWhile_append_of_forall {p : Char → Bool} :
    ∀ (l₁ l₂ : List Char), (∀ c ∈ l₁, p c = true) →
      (l₁ ++ l₂).dropWhile p = l₂.dropWhile p
  | [], _, _ => rfl
  | a :: t, l₂, h => by
      rw [List.cons_append, List.dropWhile_cons,
        if_pos (h a (List.mem_cons_self a t))]
      exact dropWhile_append_of_forall t l₂
        (fun c hc => h c (List.mem_cons_of_mem a hc))

theorem isWhitespace_toLower_self (x : Char) (h : x.isWhitespace = true) :
    x.toLower = x := by
  have h' : ((x = ' ' ∨ x = '\t') ∨ x = '\r') ∨ x = '\n' := by
    simpa [Char.isWhitespace] using h
  rcases h' with ((h' | h') | h') | h' <;> subst h' <;> decide

theorem pyStrip_sandwich (pre suf : List Char) (a b c : Char)
    (hpre : ∀ x ∈ pre, x.isWhitespace = true)
    (hsuf : ∀ x ∈ suf, x.isWhitespace = true)
    (ha : a.isWhitespace = false) (hc : c.isWhitespace = false) :
    pyStrip (pre ++ a :: b :: c :: suf) = [a, b, c] := by
  unfold pyStrip
  rw [dropWhile_append_of_forall pre _ hpre]
  rw [List.dropWhile_cons, if_neg (by simp [ha])]
  rw [show (a :: b :: c :: suf).reverse = suf.reverse ++ [c, b, a] by simp]
  rw [dropWhile_append_of_forall _ _
    (fun x hx => hsuf x (List.mem_reverse.mp hx))]
  rw [List.dropWhile_cons, if_neg (by simp [hc])]
  rfl

/-- C10: every leading/trailing-whitespace and character-case variant of the
affirmative "oui" (resp. negative "non") free-text form is folded into the
canonical "Oui" (resp. "Non"), and the normalization never produces any
value other than these two canonical states. -/
theorem c10_ouvert_normalization (pre suf : List Char) (a b c : Char)
    (hpre : ∀ x ∈ pre, x.isWhitespace = true)
    (hsuf : ∀ x ∈ suf, x.isWhitespace = true) :
    (a.toLower = 'o' → b.toLower = 'u' → c.toLower = 'i' →
      normalizeOuvert ⟨pre ++ [a, b, c] ++ suf⟩ = some "Oui") ∧
    (a.toLower = 'n' → b.toLower = 'o' → c.toLower = 'n' →
      normalizeOuvert ⟨pre ++ [a, b, c] ++ suf⟩ = some "Non") ∧
    (∀ (s res : String), normalizeOuvert s = some res →
      res = "Oui" ∨ res = "Non") := by
  have hnotws : ∀ (x : Char) (target : Char), x.toLower = target →
      target.isWhitespace = false → x.isWhitespace = false := by
    intro x target hx htarget
    cases hw : x.isWhitespace
    · rfl
    · have hxt : x = target := (isWhitespace_toLower_self x hw).symm.trans hx
      rw [hxt] at hw
      rw [hw] at htarget
      exact htarget
  have htolist : (String.mk (pre ++ [a, b, c] ++ suf)).toList
      = pre ++ a :: b :: c :: suf := by
    show pre ++ [a, b, c] ++ suf = pre ++ a :: b :: c :: suf
    simp
  refine ⟨?_, ?_, ?_⟩
  · intro h1 h2 h3
    have ha : a.isWhitespace = false := hnotws a 'o' h1 (by decide)
    have hc : c.isWhitespace = false := hnotws c 'i' h3 (by decide)
    have hstrip : pyStrip (String.mk (pre ++ [a, b, c] ++ suf)).toList
        = [a, b, c] := by
      rw [htolist]
      exact pyStrip_sandwich pre suf a b c hpre hsuf ha hc
    unfold normalizeOuvert
    rw [hstrip]
    have hlower : lowerChars [a, b, c] = "oui".toList := by
      show [a.toLower, b.toLower, c.toLower] = "oui".toList
      rw [h1, h2, h3]
      decide
    rw [if_pos hlower]
  · intro h1 h2 h3
    have ha : a.isWhitespace = false := hnotws a 'n' h1 (by decide)
    have hc : c.isWhitespace = false := hnotws c 'n' h3 (by decide)
    have hstrip : pyStrip (String.mk (pre ++ [a, b, c] ++ suf)).toList
        = [a, b, c] := by
      rw [htolist]
      exact pyStrip_sandwich pre suf a b c hpre hsuf ha hc
    unfold normalizeOuvert
    rw [hstrip]
    have hlower : lowerChars [a, b, c] = "non".toList := by
      show [a.toLower, b.toLower, c.toLower] = "non".toList
      rw [h1, h2, h3]
      decide
    rw [hlower, if_neg (by decide), if_pos rfl]
  · intro s res h
    unfold normalizeOuvert at h
    split_ifs at h
    · exact Or.inl (Option.some.inj h).symm
    · exact Or.inr (Option.some.inj h).symm

/-- C10 witness: "  OuI⟨tab⟩" and " NON " normalize to the two canonical
states. -/
theorem c10_ouvert_normalization_witness :
    normalizeOuvert ⟨[' ', ' '] ++ ['O', 'u', 'I'] ++ ['\t']⟩ = some "Oui" ∧
    normalizeOuvert ⟨[' '] ++ ['N', 'O', 'N'] ++ [' ']⟩ = some "Non" := by
  constructor
  · exact (c10_ouvert_normalization [' ', ' '] ['\t'] 'O' 'u' 'I'
      (by decide) (by decide)).1 (by decide) (by decide) (by decide)
  · exact (c10_ouvert_normalization [' '] [' '] 'N' 'O' 'N'
      (by decide) (by decide)).2.1 (by decide) (by decide) (by decide)

end MIRisk
